import Mathlib

/-!
Verification of the SpesaSmart price-aggregation core.

The repository ships the mobile client, the SQL schema and deployment
scripts; the REST backend that computes best prices, trend buckets, unit
normalization and watchlist deals is not part of the sources.  Client-side
logic (indicator classification, chart gating, watchlist request bodies)
is embedded from the TypeScript sources; the missing backend operations are
modelled from the specification, as marked on each definition.

Conventions: prices and confidences are rationals, calendar dates are
triples of naturals ordered lexicographically, fallible operations return
`Option`.
-/

/-- A calendar date, as stored in the `offers` table (`valid_from`,
`valid_to` are SQL `DATE`s). -/
structure Date where
  year : Nat
  month : Nat
  day : Nat
deriving DecidableEq, Repr

/-- Lexicographic key of a date: later dates have larger keys. -/
def dateKey (d : Date) : Nat ×ₗ Nat ×ₗ Nat :=
  toLex (d.year, toLex (d.month, d.day))

instance : LinearOrder Date :=
  LinearOrder.lift' dateKey (fun a b h => by
    cases a
    cases b
    simp only [dateKey, toLex_inj, Prod.mk.injEq] at h
    obtain ⟨h1, h2, h3⟩ := h
    subst h1
    subst h2
    subst h3
    rfl)

/-- Executable strict comparison of dates (year, then month, then day). -/
def Date.ltb (a b : Date) : Bool :=
  decide (a.year < b.year) ||
    (decide (a.year = b.year) &&
      (decide (a.month < b.month) ||
        (decide (a.month = b.month) && decide (a.day < b.day))))

/-- Executable `≤` on dates. -/
def Date.leb (a b : Date) : Bool :=
  Date.ltb a b || decide (a = b)

/-- Canonical unit of a normalized per-unit price: kilograms, litres or
pieces. -/
inductive UnitRef where
  | kg
  | l
  | pz
deriving DecidableEq, Repr

/-- An offer row, as in the `offers` table and the client `Offer`
interface: a priced instance of a product at a chain for a validity
window. -/
structure Offer where
  product_id : String
  chain_name : String
  offer_price : ℚ
  original_price : Option ℚ
  discount_pct : Option ℚ
  quantity : Option String
  price_per_unit : Option ℚ
  unit_reference : Option UnitRef
  valid_from : Date
  valid_to : Date
  confidence : ℚ
deriving DecidableEq, Repr

/-- Selection key of an offer for best-price resolution: ascending
`offer_price`, then descending `valid_to`, then descending `confidence`
(the two dual components realize "latest valid_to" and "highest
confidence" as a minimum). -/
def offerKey (o : Offer) : ℚ ×ₗ ((Nat ×ₗ Nat ×ₗ Nat)ᵒᵈ ×ₗ ℚᵒᵈ) :=
  toLex (o.offer_price,
    toLex (OrderDual.toDual (dateKey o.valid_to), OrderDual.toDual o.confidence))

/-- Modelled from the spec: strict preference between two offers used by
the Best-Price Resolver (missing from the sources): `betterOffer a b`
holds when `a` has a strictly lower `offer_price`, or equal price and a
strictly later `valid_to`, or equal price and `valid_to` and a strictly
higher `confidence`. -/
def betterOffer (a b : Offer) : Bool :=
  decide (a.offer_price < b.offer_price) ||
    (decide (a.offer_price = b.offer_price) &&
      (Date.ltb b.valid_to a.valid_to ||
        (decide (a.valid_to = b.valid_to) && decide (b.confidence < a.confidence))))

/-- Modelled from the spec: the selection step of the Best-Price Resolver
(missing from the sources).  Scans the candidate list keeping the current
winner and replacing it only by a strictly better offer, so that on ties
the earlier (insertion-order) offer wins. -/
def selectBest : List Offer → Option Offer
  | [] => none
  | o :: rest =>
    match selectBest rest with
    | none => some o
    | some w => some (if betterOffer w o then w else o)

/-- Modelled from the spec: an offer is active at `asOf` when
`valid_from ≤ asOf ≤ valid_to`. -/
def offerActiveAt (asOf : Date) (o : Offer) : Bool :=
  Date.leb o.valid_from asOf && Date.leb asOf o.valid_to

/-- Modelled from the spec: the candidate set of the Best-Price Resolver —
offers of the product whose validity window contains `asOf`. -/
def candidateOffers (offers : List Offer) (productId : String) (asOf : Date) : List Offer :=
  offers.filter (fun o => o.product_id == productId && offerActiveAt asOf o)

/-- Modelled from the spec: `bestPrice(productId, asOf)` — the Best-Price
Resolver (missing from the sources).  `none` encodes the NotFound outcome
for an empty candidate set. -/
def bestPrice (offers : List Offer) (productId : String) (asOf : Date) : Option Offer :=
  selectBest (candidateOffers offers productId asOf)

/-- The three price-indicator labels of `PriceIndicator.tsx`. -/
inductive Indicator where
  | ottimo
  | medio
  | alto
deriving DecidableEq, Repr

/-- A history point as consumed by `computeIndicator` in
`PriceIndicator.tsx` (only its `price` is read, coerced to a number). -/
structure HistoryPoint where
  price : ℚ
deriving DecidableEq, Repr

/-- The mean of the historical prices, as computed in
`PriceIndicator.tsx`: `prices.reduce(sum)/prices.length` over
`history.map(h => Number(h.price))`. -/
def histAvg (history : List HistoryPoint) : ℚ :=
  (history.map HistoryPoint.price).sum / ((history.map HistoryPoint.price).length : ℚ)

/-- `computeIndicator` from `src/mobile/components/PriceIndicator.tsx`:
empty history yields `medio`; otherwise strictly below `avg * 0.8` is
`ottimo`, strictly above `avg * 1.1` is `alto`, else `medio`. -/
def computeIndicator (currentPrice : ℚ) (history : List HistoryPoint) : Indicator :=
  if history.length = 0 then Indicator.medio
  else if currentPrice < histAvg history * (8 / 10) then Indicator.ottimo
  else if histAvg history * (11 / 10) < currentPrice then Indicator.alto
  else Indicator.medio

/-- Digit run to a natural number; `none` on an empty or non-digit run. -/
def digitsToNat (cs : List Char) : Option Nat :=
  if cs ≠ [] ∧ cs.all Char.isDigit then
    some (cs.foldl (fun n c => 10 * n + (c.toNat - 48)) 0)
  else none

/-- Modelled from the spec: decimal magnitude of a quantity text, kept as
an exact (numerator, scale) pair so that parsing stays in `Nat`:
`"330"` parses to `(330, 1)` and `"1.5"` to `(15, 10)`. -/
def parseDecimal (cs : List Char) : Option (Nat × Nat) :=
  match cs.splitOn '.' with
  | [intPart] => (digitsToNat intPart).map (fun n => (n, 1))
  | [intPart, fracPart] =>
    match digitsToNat intPart, digitsToNat fracPart with
    | some n, some f => some (n * 10 ^ fracPart.length + f, 10 ^ fracPart.length)
    | _, _ => none
  | _ => none

/-- Modelled from the spec: unit token table of the Price Normalizer —
mass normalizes to kg, volume to l, countable packs to pz; the fraction
is the factor converting the parsed magnitude to the canonical unit. -/
def unitFactor (cs : List Char) : Option ((Nat × Nat) × UnitRef) :=
  if cs = ['k', 'g'] then some ((1, 1), UnitRef.kg)
  else if cs = ['g'] then some ((1, 1000), UnitRef.kg)
  else if cs = ['l'] then some ((1, 1), UnitRef.l)
  else if cs = ['m', 'l'] then some ((1, 1000), UnitRef.l)
  else if cs = ['c', 'l'] then some ((1, 100), UnitRef.l)
  else if cs = ['p', 'z'] then some ((1, 1), UnitRef.pz)
  else none

/-- Product of two exact (numerator, denominator) pairs. -/
def fracMul (a b : Nat × Nat) : Nat × Nat :=
  (a.1 * b.1, a.2 * b.2)

/-- Modelled from the spec: parse a leading numeric magnitude followed by
a unit token, returning the normalized quantity (an exact fraction) and
the canonical unit. -/
def parseSimpleQuantity (cs : List Char) : Option ((Nat × Nat) × UnitRef) := do
  let numCs := cs.takeWhile (fun c => c.isDigit || c == '.')
  let unitCs := cs.dropWhile (fun c => c.isDigit || c == '.')
  let v ← parseDecimal numCs
  let (factor, u) ← unitFactor unitCs
  pure (fracMul v factor, u)

/-- Modelled from the spec: the quantity grammar of the Price Normalizer
(missing from the sources).  An `x<N>` multipack such as `"6x330ml"`
multiplies the per-item quantity by the pack count; any other text is a
plain magnitude plus unit token; unparseable text yields `none`. -/
def parseQuantity (s : String) : Option ((Nat × Nat) × UnitRef) :=
  match s.toList.splitOn 'x' with
  | [single] => parseSimpleQuantity single
  | [countCs, itemCs] => do
    let count ← digitsToNat countCs
    let (q, u) ← parseSimpleQuantity itemCs
    pure ((count * q.1, q.2), u)
  | _ => none

/-- The rational value of a parsed (numerator, denominator) quantity. -/
def quantityToRat (q : Nat × Nat) : ℚ :=
  (q.1 : ℚ) / (q.2 : ℚ)

/-- Result of the Price Normalizer: `price_per_unit` and `unit_reference`,
both null when the quantity text is unparseable. -/
structure NormalizedPrice where
  price_per_unit : Option ℚ
  unit_reference : Option UnitRef
deriving DecidableEq, Repr

/-- Divides the offer price by a successfully parsed normalized quantity;
a missing or non-positive quantity degrades to the null result. -/
def normalizeWithParsed (offer_price : ℚ) :
    Option ((Nat × Nat) × UnitRef) → NormalizedPrice
  | none => ⟨none, none⟩
  | some (q, u) =>
    if quantityToRat q ≤ 0 then ⟨none, none⟩
    else ⟨some (offer_price / quantityToRat q), some u⟩

/-- Modelled from the spec: the Price Normalizer (missing from the
sources) — `price_per_unit = offer_price / normalized_quantity`, with the
null result (not an error) on unparseable quantity text. -/
def priceNormalizer (quantity : Option String) (offer_price : ℚ) : NormalizedPrice :=
  match quantity with
  | none => ⟨none, none⟩
  | some s => normalizeWithParsed offer_price (parseQuantity s)

/-- The two chart modes of `PriceChart.tsx`. -/
inductive ViewMode where
  | price
  | price_per_unit
deriving DecidableEq, Repr

/-- A history point as consumed by `PriceChart.tsx`. -/
structure PricePoint where
  date : String
  price : ℚ
  chain_name : String
  price_per_unit : Option ℚ
  unit_reference : Option UnitRef
deriving DecidableEq, Repr

/-- `hasPpu` from `PriceChart.tsx`: some point carries a per-unit price. -/
def hasPpu (data : List PricePoint) : Bool :=
  data.any (fun p => p.price_per_unit.isSome)

/-- The initial view mode chosen by `PriceChart.tsx`: per-unit prices when
available, otherwise the raw-price comparison. -/
def initialViewMode (data : List PricePoint) : ViewMode :=
  if hasPpu data then ViewMode.price_per_unit else ViewMode.price

/-- A watchlist entry (the `user_watchlist` row restricted to the fields
the matcher reads). -/
structure WatchlistEntry where
  product_id : String
  target_price : Option ℚ
  notify_any_offer : Bool
deriving DecidableEq, Repr

/-- Modelled from the spec: the Watchlist Matcher qualification rule
(missing from the sources) — an entry qualifies when an active offer
exists for its product and either `notify_any_offer` is set or the best
price is at most the target price. -/
def entryQualifies (offers : List Offer) (asOf : Date) (e : WatchlistEntry) : Bool :=
  match bestPrice offers e.product_id asOf with
  | none => false
  | some w =>
    e.notify_any_offer ||
      (match e.target_price with
       | none => false
       | some t => decide (w.offer_price ≤ t))

/-- The request body built by `addToWatchlist` in
`src/mobile/services/api.ts`. -/
structure WatchlistAddBody where
  product_id : String
  target_price : Option ℚ
  notify_any_offer : Bool
deriving DecidableEq, Repr

/-- `addToWatchlist` from `src/mobile/services/api.ts`: the body always
carries `notify_any_offer: true`; the target price is passed through. -/
def addToWatchlistBody (productId : String) (targetPrice : Option ℚ) : WatchlistAddBody :=
  { product_id := productId, target_price := targetPrice, notify_any_offer := true }

/-- The watchlist entry the backend persists from an add request (field
by field, per the `user_watchlist` schema). -/
def entryFromBody (b : WatchlistAddBody) : WatchlistEntry :=
  ⟨b.product_id, b.target_price, b.notify_any_offer⟩

/-- A monthly trend bucket, as in the client `PriceTrendPoint` interface
(the period is the (year, month) pair). -/
structure PriceTrendPoint where
  period : Nat × Nat
  avg_price_per_unit : Option ℚ
  min_price_per_unit : Option ℚ
  max_price_per_unit : Option ℚ
  avg_offer_price : Option ℚ
  min_offer_price : Option ℚ
  max_offer_price : Option ℚ
  data_points : Nat
deriving DecidableEq, Repr

/-- The filter of `PriceTrendChart` (in `ProductComparison.tsx`): only
buckets carrying a non-null `avg_price_per_unit` feed the chart. -/
def trendsWithPpu (trends : List PriceTrendPoint) : List PriceTrendPoint :=
  trends.filter (fun t => t.avg_price_per_unit.isSome)

/-- `PriceTrendChart` renders a chart only when at least two buckets
survive its per-unit filter; otherwise it shows the insufficient-data
message. -/
def priceTrendChartHasData (trends : List PriceTrendPoint) : Bool :=
  decide (2 ≤ (trendsWithPpu trends).length)

/-- The gate in the product-detail screen: the trend section renders only
when the series has at least two buckets. -/
def productDetailShowsTrends (trends : List PriceTrendPoint) : Bool :=
  decide (2 ≤ trends.length)

/-- A trend series is actually charted when the product-detail gate and
the chart's own per-unit filter both pass. -/
def trendCharted (trends : List PriceTrendPoint) : Bool :=
  productDetailShowsTrends trends && priceTrendChartHasData trends

/-- Modelled from the spec: the bucket key of the Trend Aggregator —
(year, month) of `valid_from`. -/
def monthKey (o : Offer) : Nat × Nat :=
  (o.valid_from.year, o.valid_from.month)

/-- The calendar month preceding a (year, month) pair. -/
def prevMonth : Nat × Nat → Nat × Nat
  | (y, m) => if m ≤ 1 then (y - 1, 12) else (y, m - 1)

/-- The most recent `n` calendar months ending at `ym`, oldest first. -/
def lastMonths : Nat × Nat → Nat → List (Nat × Nat)
  | _, 0 => []
  | ym, n + 1 => lastMonths (prevMonth ym) n ++ [ym]

/-- Mean of a list of rationals, `none` on the empty list. -/
def ratAvg (qs : List ℚ) : Option ℚ :=
  if qs.length = 0 then none else some (qs.sum / (qs.length : ℚ))

/-- Modelled from the spec: the Trend Aggregator's bucket for one
calendar month (missing from the sources).  Months with zero contributing
offers yield `none` (omitted, not zero-filled); per-unit statistics range
only over offers with a non-null `price_per_unit`. -/
def bucketFor (offers : List Offer) (productId : String) (ym : Nat × Nat) :
    Option PriceTrendPoint :=
  let group := offers.filter (fun o => o.product_id == productId && decide (monthKey o = ym))
  if group.length = 0 then none
  else
    let prices := group.map Offer.offer_price
    let ppus := group.filterMap Offer.price_per_unit
    some
      { period := ym
        avg_price_per_unit := ratAvg ppus
        min_price_per_unit := ppus.min?
        max_price_per_unit := ppus.max?
        avg_offer_price := ratAvg prices
        min_offer_price := prices.min?
        max_offer_price := prices.max?
        data_points := group.length }

/-- Modelled from the spec: `trends(productId, months)` (missing from the
sources) — the monthly buckets of the most recent `months` calendar
months ending at `asOfMonth`, oldest first, empty months omitted. -/
def priceTrends (offers : List Offer) (productId : String) (asOfMonth : Nat × Nat)
    (months : Nat) : List PriceTrendPoint :=
  (lastMonths asOfMonth months).filterMap (bucketFor offers productId)

/-! Concrete sample data, used to instantiate the theorems below on
closed inputs (the end-to-end scenario of the spec: Esselunga 2.50 valid
Jan 1 to 7, Lidl 2.30 valid Jan 3 to 10). -/

def pidSample : String := "prod-1"

/-- The rational 2.30, given in lowest terms so that kernel evaluation of
comparisons never has to normalize. -/
def price230 : ℚ := ⟨23, 10, by norm_num, by norm_num⟩

/-- The rational 2.50 in lowest terms. -/
def price250 : ℚ := ⟨5, 2, by norm_num, by norm_num⟩

/-- The rational 5.01 in lowest terms. -/
def price501 : ℚ := ⟨501, 100, by norm_num, by norm_num⟩

/-- The rational 0.9 in lowest terms. -/
def conf09 : ℚ := ⟨9, 10, by norm_num, by norm_num⟩

/-- The rational 0.8 in lowest terms. -/
def conf08 : ℚ := ⟨4, 5, by norm_num, by norm_num⟩

def chainLidl : String := "Lidl"

def chainEsselunga : String := "Esselunga"

def qtyOneKg : String := "1kg"

def qtySixPack : String := "6x330ml"

def qtyBad : String := "abc"

def dateStrSample : String := "2025-01-05"

def sampleDate : Date := ⟨2025, 1, 5⟩

def sampleOffer : Offer :=
  { product_id := pidSample
    chain_name := chainLidl
    offer_price := price230
    original_price := some price250
    discount_pct := none
    quantity := some qtyOneKg
    price_per_unit := some price230
    unit_reference := some UnitRef.kg
    valid_from := ⟨2025, 1, 3⟩
    valid_to := ⟨2025, 1, 10⟩
    confidence := conf09 }

def sampleOffer2 : Offer :=
  { product_id := pidSample
    chain_name := chainEsselunga
    offer_price := price250
    original_price := none
    discount_pct := none
    quantity := some qtyOneKg
    price_per_unit := some price250
    unit_reference := some UnitRef.kg
    valid_from := ⟨2025, 1, 1⟩
    valid_to := ⟨2025, 1, 7⟩
    confidence := conf08 }

def sampleOffers : List Offer := [sampleOffer2, sampleOffer]

def offerAtFive : Offer :=
  { product_id := pidSample
    chain_name := chainEsselunga
    offer_price := 5
    original_price := none
    discount_pct := none
    quantity := none
    price_per_unit := none
    unit_reference := none
    valid_from := ⟨2025, 1, 1⟩
    valid_to := ⟨2025, 1, 7⟩
    confidence := 1 }

def offerAtFiveOhOne : Offer :=
  { offerAtFive with offer_price := price501 }

def entryTargetFive : WatchlistEntry :=
  { product_id := pidSample, target_price := some 5, notify_any_offer := false }

def samplePricePoint : PricePoint :=
  { date := dateStrSample
    price := price230
    chain_name := chainLidl
    price_per_unit := none
    unit_reference := none }

def histSample : List HistoryPoint := [⟨1⟩]

def trendMonthSample : Nat × Nat := (2025, 1)

def sampleTrendOffers : List Offer := [sampleOffer]

def trendBucketSample : PriceTrendPoint :=
  { period := trendMonthSample
    avg_price_per_unit := some price230
    min_price_per_unit := some price230
    max_price_per_unit := some price230
    avg_offer_price := some price230
    min_offer_price := some price230
    max_offer_price := some price230
    data_points := 1 }

/-- A February offer for the same product carrying no per-unit price
(its quantity text was unparseable, so the normalizer returned null). -/
def offerFebNoPpu : Offer :=
  { product_id := pidSample
    chain_name := chainEsselunga
    offer_price := 2
    original_price := none
    discount_pct := none
    quantity := some qtyBad
    price_per_unit := none
    unit_reference := none
    valid_from := ⟨2025, 2, 1⟩
    valid_to := ⟨2025, 2, 7⟩
    confidence := 1 }

def offersJanFeb : List Offer := [sampleOffer, offerFebNoPpu]

/-- The February bucket produced from `offerFebNoPpu`: one data point,
but all per-unit statistics null. -/
def febBucketNoPpu : PriceTrendPoint :=
  { period := (2025, 2)
    avg_price_per_unit := none
    min_price_per_unit := none
    max_price_per_unit := none
    avg_offer_price := some 2
    min_offer_price := some 2
    max_offer_price := some 2
    data_points := 1 }

/-! Order lemmas connecting the executable comparisons to the
lexicographic keys. -/

theorem dateKey_inj {a b : Date} : dateKey a = dateKey b ↔ a = b := by
  constructor
  · intro h
    cases a
    cases b
    simp only [dateKey, toLex_inj, Prod.mk.injEq] at h
    obtain ⟨h1, h2, h3⟩ := h
    subst h1
    subst h2
    subst h3
    rfl
  · intro h
    rw [h]

theorem Date.lt_def (a b : Date) : a < b ↔ dateKey a < dateKey b := Iff.rfl

theorem Date.le_def (a b : Date) : a ≤ b ↔ dateKey a ≤ dateKey b := Iff.rfl

theorem Date.ltb_key (a b : Date) : Date.ltb a b = true ↔ dateKey a < dateKey b := by
  simp only [Date.ltb, dateKey, Prod.Lex.lt_iff, Bool.or_eq_true, Bool.and_eq_true,
    decide_eq_true_eq, toLex_inj, Prod.mk.injEq]

theorem Date.ltb_lt (a b : Date) : Date.ltb a b = true ↔ a < b := by
  rw [Date.ltb_key, Date.lt_def]

theorem Date.leb_le (a b : Date) : Date.leb a b = true ↔ a ≤ b := by
  simp only [Date.leb, Bool.or_eq_true, decide_eq_true_eq, Date.ltb_lt]
  rw [le_iff_lt_or_eq]

theorem betterOffer_key (a b : Offer) : betterOffer a b = true ↔ offerKey a < offerKey b := by
  simp only [betterOffer, offerKey, Prod.Lex.lt_iff, Bool.or_eq_true, Bool.and_eq_true,
    decide_eq_true_eq, Date.ltb_key, toLex_inj, Prod.mk.injEq, OrderDual.toDual_lt_toDual,
    OrderDual.toDual_inj, dateKey_inj]

theorem betterOffer_self_false (a : Offer) : betterOffer a a = false := by
  rw [Bool.eq_false_iff]
  intro h
  exact absurd ((betterOffer_key a a).mp h) (lt_irrefl _)

theorem betterOffer_asymm {a b : Offer} (h : betterOffer a b = true) :
    betterOffer b a = false := by
  rw [Bool.eq_false_iff]
  intro h'
  exact absurd ((betterOffer_key b a).mp h') (lt_asymm ((betterOffer_key a b).mp h))

theorem betterOffer_neg_trans {a b c : Offer} (h₁ : betterOffer a b = false)
    (h₂ : betterOffer b c = false) : betterOffer a c = false := by
  rw [Bool.eq_false_iff] at h₁ h₂ ⊢
  intro h
  have hba : offerKey b ≤ offerKey a := not_lt.mp (fun hc => h₁ ((betterOffer_key a b).mpr hc))
  have hcb : offerKey c ≤ offerKey b := not_lt.mp (fun hc => h₂ ((betterOffer_key b c).mpr hc))
  exact absurd ((betterOffer_key a c).mp h) (not_lt.mpr (le_trans hcb hba))

theorem offerKey_le_of_not_better {o w : Offer} (h : betterOffer o w = false) :
    offerKey w ≤ offerKey o := by
  rw [Bool.eq_false_iff] at h
  exact not_lt.mp (fun hc => h ((betterOffer_key o w).mpr hc))

theorem offerKey_le_conds {w o : Offer} (h : offerKey w ≤ offerKey o) :
    w.offer_price ≤ o.offer_price ∧
      (o.offer_price = w.offer_price → o.valid_to ≤ w.valid_to) ∧
      (o.offer_price = w.offer_price → o.valid_to = w.valid_to →
        o.confidence ≤ w.confidence) := by
  rw [offerKey, offerKey, Prod.Lex.le_iff] at h
  rcases h with h | ⟨hp, hrest⟩
  · refine ⟨le_of_lt h, fun heq => absurd h ?_, fun heq _ => absurd h ?_⟩
    · rw [heq]
      exact lt_irrefl _
    · rw [heq]
      exact lt_irrefl _
  · rw [Prod.Lex.le_iff] at hrest
    simp only [OrderDual.toDual_lt_toDual, OrderDual.toDual_le_toDual, OrderDual.toDual_inj, dateKey_inj] at hrest
    refine ⟨le_of_eq hp, fun _ => ?_, fun _ hveq => ?_⟩
    · rcases hrest with h | ⟨hv, _⟩
      · exact le_of_lt ((Date.lt_def _ _).mpr h)
      · exact le_of_eq hv.symm
    · rcases hrest with h | ⟨_, hc⟩
      · rw [hveq] at h
        exact absurd h (lt_irrefl _)
      · exact hc

theorem selectBest_eq_none_iff (l : List Offer) : selectBest l = none ↔ l = [] := by
  cases l with
  | nil => simp [selectBest]
  | cons o rest =>
    simp only [selectBest]
    cases h : selectBest rest <;> simp

theorem selectBest_spec {l : List Offer} {w : Offer} (h : selectBest l = some w) :
    (∃ l₁ l₂, l = l₁ ++ w :: l₂ ∧ ∀ o ∈ l₁, betterOffer w o = true) ∧
      ∀ o ∈ l, betterOffer o w = false := by
  induction l generalizing w with
  | nil => simp [selectBest] at h
  | cons a rest ih =>
    cases hr : selectBest rest with
    | none =>
      have hrest : rest = [] := (selectBest_eq_none_iff rest).mp hr
      subst hrest
      simp only [selectBest, Option.some.injEq] at h
      subst h
      refine ⟨⟨[], [], rfl, by simp⟩, ?_⟩
      intro o ho
      simp only [List.mem_singleton] at ho
      subst ho
      exact betterOffer_self_false _
    | some w' =>
      obtain ⟨⟨l₁, l₂, hsplit, hbeat⟩, hmin⟩ := ih hr
      simp only [selectBest, hr] at h
      by_cases hb : betterOffer w' a = true
      · rw [if_pos hb] at h
        simp only [Option.some.injEq] at h
        subst h
        refine ⟨⟨a :: l₁, l₂, by rw [hsplit, List.cons_append], ?_⟩, ?_⟩
        · intro o ho
          rcases List.mem_cons.mp ho with rfl | ho'
          · exact hb
          · exact hbeat o ho'
        · intro o ho
          rcases List.mem_cons.mp ho with rfl | ho'
          · exact betterOffer_asymm hb
          · exact hmin o ho'
      · rw [if_neg hb] at h
        simp only [Option.some.injEq] at h
        subst h
        have hb' : betterOffer w' a = false := Bool.eq_false_iff.mpr hb
        refine ⟨⟨[], rest, rfl, by simp⟩, ?_⟩
        intro o ho
        rcases List.mem_cons.mp ho with rfl | ho'
        · exact betterOffer_self_false _
        · exact betterOffer_neg_trans (hmin o ho') hb'

/-- Claim C1: for every product and every non-empty candidate set of
currently valid offers, `bestPrice` selects the offer with minimum
`offer_price`, breaking ties first by latest `valid_to`, then by highest
`confidence`, then by stable insertion order (every candidate placed
before the winner is strictly worse than it), and the winner is unique,
so running the selection twice on the same candidate set yields the same
winner. -/
theorem bestPrice_min_tiebreak (offers : List Offer) (productId : String) (asOf : Date)
    (hne : candidateOffers offers productId asOf ≠ []) :
    ∃ w, bestPrice offers productId asOf = some w ∧
      w ∈ candidateOffers offers productId asOf ∧
      (∀ o ∈ candidateOffers offers productId asOf, w.offer_price ≤ o.offer_price) ∧
      (∀ o ∈ candidateOffers offers productId asOf,
        o.offer_price = w.offer_price → o.valid_to ≤ w.valid_to) ∧
      (∀ o ∈ candidateOffers offers productId asOf,
        o.offer_price = w.offer_price → o.valid_to = w.valid_to →
          o.confidence ≤ w.confidence) ∧
      (∃ l₁ l₂, candidateOffers offers productId asOf = l₁ ++ w :: l₂ ∧
        ∀ o ∈ l₁, betterOffer w o = true) ∧
      (∀ w', bestPrice offers productId asOf = some w' → w' = w) := by
  cases hw : bestPrice offers productId asOf with
  | none =>
    rw [bestPrice, selectBest_eq_none_iff] at hw
    exact absurd hw hne
  | some w =>
    have hw' : selectBest (candidateOffers offers productId asOf) = some w := hw
    obtain ⟨⟨l₁, l₂, hsplit, hbeat⟩, hmin⟩ := selectBest_spec hw'
    have hmem : w ∈ candidateOffers offers productId asOf := by
      rw [hsplit]
      exact List.mem_append_right _ (List.mem_cons_self _ _)
    refine ⟨w, rfl, hmem, ?_, ?_, ?_, ⟨l₁, l₂, hsplit, hbeat⟩, ?_⟩
    · intro o ho
      exact (offerKey_le_conds (offerKey_le_of_not_better (hmin o ho))).1
    · intro o ho
      exact (offerKey_le_conds (offerKey_le_of_not_better (hmin o ho))).2.1 
    · intro o ho
      exact (offerKey_le_conds (offerKey_le_of_not_better (hmin o ho))).2.2
    · intro w' hw''
      injection hw'' with hww
      exact hww.symm

/-- Closed instantiation of `bestPrice_min_tiebreak` on the spec's
end-to-end scenario (Esselunga 2.50 Jan 1 to 7, Lidl 2.30 Jan 3 to 10,
queried on Jan 5). -/
theorem bestPrice_min_tiebreak_witness :
    candidateOffers sampleOffers pidSample sampleDate ≠ [] ∧
      ∃ w, bestPrice sampleOffers pidSample sampleDate = some w :=
  ⟨by decide, by
    obtain ⟨w, hw, -, -, -, -, -, -⟩ :=
      bestPrice_min_tiebreak sampleOffers pidSample sampleDate (by decide)
    exact ⟨w, hw⟩⟩

/-- Claim C2: `bestPrice` never returns an offer whose validity window
excludes `asOf`: every returned offer satisfies
`valid_from ≤ asOf ≤ valid_to`, because the candidate set is restricted
to offers meeting that predicate. -/
theorem bestPrice_respects_validity (offers : List Offer) (productId : String)
    (asOf : Date) (w : Offer) (h : bestPrice offers productId asOf = some w) :
    w.valid_from ≤ asOf ∧ asOf ≤ w.valid_to := by
  have h' : selectBest (candidateOffers offers productId asOf) = some w := h
  obtain ⟨⟨l₁, l₂, hsplit, -⟩, -⟩ := selectBest_spec h'
  have hmem : w ∈ candidateOffers offers productId asOf := by
    rw [hsplit]
    exact List.mem_append_right _ (List.mem_cons_self _ _)
  simp only [candidateOffers, List.mem_filter, offerActiveAt, Bool.and_eq_true] at hmem
  exact ⟨(Date.leb_le _ _).mp hmem.2.2.1, (Date.leb_le _ _).mp hmem.2.2.2⟩

/-- Closed instantiation of `bestPrice_respects_validity`: the Jan 5
winner's window indeed contains Jan 5. -/
theorem bestPrice_respects_validity_witness :
    bestPrice sampleOffers pidSample sampleDate = some sampleOffer ∧
      sampleOffer.valid_from ≤ sampleDate ∧ sampleDate ≤ sampleOffer.valid_to :=
  ⟨by decide,
    bestPrice_respects_validity sampleOffers pidSample sampleDate sampleOffer (by decide)⟩

theorem histAvg_nonneg {history : List HistoryPoint}
    (hpos : ∀ h ∈ history, 0 ≤ h.price) : 0 ≤ histAvg history := by
  apply div_nonneg
  · apply List.sum_nonneg
    intro x hx
    obtain ⟨h, hh, rfl⟩ := List.mem_map.mp hx
    exact hpos h hh
  · exact_mod_cast Nat.zero_le _

/-- Claim C3: for every `currentBestPrice` and every non-empty
`historicalPrices` list (of nonnegative prices, per the data-model
invariant `offer_price > 0`) with mean `avg`, `computeIndicator` returns
`ottimo` exactly when the price is strictly below `avg * 0.8`, `alto`
exactly when it is strictly above `avg * 1.1`, and `medio` otherwise;
both comparisons are strict, so an input of exactly `avg * 0.8` is
classified `medio`, not `ottimo`. -/
theorem computeIndicator_thresholds (c : ℚ) (history : List HistoryPoint)
    (hne : history ≠ []) (hpos : ∀ h ∈ history, 0 ≤ h.price) :
    ((computeIndicator c history = Indicator.ottimo) ↔
      c < histAvg history * (8 / 10)) ∧
    ((computeIndicator c history = Indicator.alto) ↔
      histAvg history * (11 / 10) < c) ∧
    ((computeIndicator c history = Indicator.medio) ↔
      (histAvg history * (8 / 10) ≤ c ∧ c ≤ histAvg history * (11 / 10))) ∧
    computeIndicator (histAvg history * (8 / 10)) history = Indicator.medio := by
  have hlen : ¬history.length = 0 := by
    simpa [List.length_eq_zero] using hne
  have havg : 0 ≤ histAvg history := histAvg_nonneg hpos
  have hth : histAvg history * (8 / 10) ≤ histAvg history * (11 / 10) := by nlinarith
  refine ⟨?_, ?_, ?_, ?_⟩
  · simp only [computeIndicator, if_neg hlen]
    split_ifs with h1 h2
    · simpa using h1
    · simpa using h1
    · simpa using h1
  · simp only [computeIndicator, if_neg hlen]
    split_ifs with h1 h2
    · simp only [reduceCtorEq, false_iff, not_lt]
      linarith
    · simpa using h2
    · simpa using h2
  · simp only [computeIndicator, if_neg hlen]
    split_ifs with h1 h2
    · simp only [reduceCtorEq, false_iff, not_and, not_le]
      intro hc
      linarith
    · simp only [reduceCtorEq, false_iff, not_and, not_le]
      intro hc
      linarith
    · simp only [true_iff]
      exact ⟨not_lt.mp h1, not_lt.mp h2⟩
  · simp only [computeIndicator, if_neg hlen]
    rw [if_neg (lt_irrefl _), if_neg (by linarith)]

/-- Closed instantiation of `computeIndicator_thresholds` on a singleton
history. -/
theorem computeIndicator_thresholds_witness :
    histSample ≠ [] ∧ (∀ h ∈ histSample, 0 ≤ h.price) ∧
      computeIndicator (histAvg histSample * (8 / 10)) histSample = Indicator.medio :=
  ⟨by decide, by decide,
    (computeIndicator_thresholds 1 histSample (by decide) (by decide)).2.2.2⟩

/-- Claim C4: for every `currentBestPrice`, when the history is empty,
`computeIndicator` returns `medio` — it neither fails (it is total) nor
returns `ottimo` or `alto`. -/
theorem computeIndicator_empty (c : ℚ) : computeIndicator c [] = Indicator.medio := rfl

/-- Claim C5: for every price `p`, the Price Normalizer maps quantity
`"1kg"` to a per-unit price equal to `p`, and maps the multipack quantity
`"6x330ml"` to `p / 1.98` (6 × 0.330 l = 1.98 l total volume, computed
here as the exact fraction 1980/1000), multiplying the per-item quantity
by the pack count only because the text encodes a multipack. -/
theorem priceNormalizer_units (p : ℚ) :
    priceNormalizer (some qtyOneKg) p = ⟨some p, some UnitRef.kg⟩ ∧
      priceNormalizer (some qtySixPack) p = ⟨some (p / (198 / 100)), some UnitRef.l⟩ := by
  have h1 : parseQuantity qtyOneKg = some ((1, 1), UnitRef.kg) := by decide
  have h2 : parseQuantity qtySixPack = some ((1980, 1000), UnitRef.l) := by decide
  constructor
  · show normalizeWithParsed p (parseQuantity qtyOneKg) = _
    rw [h1]
    simp only [normalizeWithParsed, quantityToRat]
    norm_num
  · show normalizeWithParsed p (parseQuantity qtySixPack) = _
    rw [h2]
    simp only [normalizeWithParsed, quantityToRat]
    norm_num

/-- Claim C6: for every offer whose quantity text is unparseable, the
Price Normalizer returns null `price_per_unit` and `unit_reference`
without raising an error (it is a total function into `NormalizedPrice`),
and the downstream chart treats an all-null per-unit series as "unit
price unavailable", falling back to the raw-price comparison mode. -/
theorem priceNormalizer_unparseable (s : String) (p : ℚ) (data : List PricePoint)
    (hs : parseQuantity s = none) (hdata : ∀ pt ∈ data, pt.price_per_unit = none) :
    priceNormalizer (some s) p = ⟨none, none⟩ ∧ initialViewMode data = ViewMode.price := by
  constructor
  · show normalizeWithParsed p (parseQuantity s) = _
    rw [hs]
    rfl
  · have hppu : hasPpu data = false := by
      rw [Bool.eq_false_iff]
      intro hc
      simp only [hasPpu, List.any_eq_true] at hc
      obtain ⟨pt, hpt, hsome⟩ := hc
      rw [hdata pt hpt] at hsome
      simp at hsome
    simp [initialViewMode, hppu]

/-- Closed instantiation of `priceNormalizer_unparseable` on the
quantity text `"abc"` and a history with no per-unit data. -/
theorem priceNormalizer_unparseable_witness :
    parseQuantity qtyBad = none ∧
      (∀ pt ∈ [samplePricePoint], pt.price_per_unit = none) ∧
      (priceNormalizer (some qtyBad) 1 = ⟨none, none⟩ ∧
        initialViewMode [samplePricePoint] = ViewMode.price) :=
  ⟨by decide, by decide,
    priceNormalizer_unparseable qtyBad 1 [samplePricePoint] (by decide) (by decide)⟩

/-- Claim C7: a watchlist entry qualifies as a deal if and only if an
active offer exists for its product and either `notify_any_offer` is true
or the best price is at most the target price; in particular an entry
with `notify_any_offer = false` and target 5.00 qualifies at a best price
of exactly 5.00 but not at 5.01. -/
theorem entryQualifies_spec :
    (∀ (offers : List Offer) (asOf : Date) (e : WatchlistEntry),
      entryQualifies offers asOf e = true ↔
        ∃ w, bestPrice offers e.product_id asOf = some w ∧
          (e.notify_any_offer = true ∨
            ∃ t, e.target_price = some t ∧ w.offer_price ≤ t)) ∧
      entryQualifies [offerAtFive] sampleDate entryTargetFive = true ∧
      entryQualifies [offerAtFiveOhOne] sampleDate entryTargetFive = false := by
  refine ⟨?_, by decide, by decide⟩
  intro offers asOf e
  simp only [entryQualifies]
  cases hbp : bestPrice offers e.product_id asOf with
  | none => simp
  | some w =>
    cases ht : e.target_price with
    | none => simp
    | some t => simp

/-- Counterexample to claim C8 as stated: the trend series of a product
with one January offer (with per-unit data) and one February offer
(without) has exactly 2 non-empty monthly buckets, yet it is NOT
charted — `PriceTrendChart` filters buckets to those with non-null
`avg_price_per_unit` and shows the insufficient-data message when fewer
than 2 survive. -/
theorem trendCharted_counterexample :
    2 ≤ ((priceTrends offersJanFeb pidSample (2025, 2) 2).filter
        (fun b => decide (1 ≤ b.data_points))).length ∧
      trendCharted (priceTrends offersJanFeb pidSample (2025, 2) 2) = false := by
  have heval : priceTrends offersJanFeb pidSample (2025, 2) 2 =
      [trendBucketSample, febBucketNoPpu] := by
    simp [priceTrends, lastMonths, prevMonth, bucketFor, ratAvg, monthKey, offersJanFeb,
      sampleOffer, offerFebNoPpu, pidSample, trendMonthSample, trendBucketSample,
      febBucketNoPpu, List.min?, List.max?, beq_self_eq_true]
  rw [heval]
  decide

/-- Claim C8 (amended): a trend series is charted exactly when at least
two of its buckets carry a non-null `avg_price_per_unit`; non-empty
buckets without per-unit data do not count toward the threshold (the
product-detail gate `length ≥ 2` is subsumed, since the per-unit filter
only removes buckets). -/
theorem trendCharted_iff (trends : List PriceTrendPoint) :
    trendCharted trends = true ↔ 2 ≤ (trendsWithPpu trends).length := by
  simp only [trendCharted, productDetailShowsTrends, priceTrendChartHasData,
    Bool.and_eq_true, decide_eq_true_eq]
  constructor
  · rintro ⟨-, h⟩
    exact h
  · intro h
    have hle : (trendsWithPpu trends).length ≤ trends.length :=
      List.length_filter_le _ trends
    exact ⟨le_trans h hle, h⟩

/-- Claim C9: every bucket in the sequence returned by the trend
aggregator has `data_points ≥ 1` — calendar months with zero contributing
offers are omitted from the output rather than emitted as zero-filled
buckets. -/
theorem priceTrends_data_points_pos (offers : List Offer) (productId : String)
    (asOfMonth : Nat × Nat) (months : Nat) (b : PriceTrendPoint)
    (hb : b ∈ priceTrends offers productId asOfMonth months) :
    1 ≤ b.data_points := by
  simp only [priceTrends, List.mem_filterMap] at hb
  obtain ⟨ym, -, hbucket⟩ := hb
  simp only [bucketFor] at hbucket
  by_cases hg : (offers.filter
      (fun o => o.product_id == productId && decide (monthKey o = ym))).length = 0
  · rw [if_pos hg] at hbucket
    exact absurd hbucket (by simp)
  · rw [if_neg hg] at hbucket
    injection hbucket with hb'
    subst hb'
    exact Nat.one_le_iff_ne_zero.mpr hg

/-- Closed instantiation of `priceTrends_data_points_pos` on a
single-offer month. -/
theorem priceTrends_data_points_pos_witness :
    trendBucketSample ∈ priceTrends sampleTrendOffers pidSample trendMonthSample 1 ∧
      1 ≤ trendBucketSample.data_points := by
  have hmem : trendBucketSample ∈ priceTrends sampleTrendOffers pidSample trendMonthSample 1 := by
    have heval : priceTrends sampleTrendOffers pidSample trendMonthSample 1 =
        [trendBucketSample] := by
      simp [priceTrends, lastMonths, prevMonth, bucketFor, ratAvg, monthKey,
        sampleTrendOffers, sampleOffer, pidSample, trendMonthSample, trendBucketSample,
        List.min?, List.max?, beq_self_eq_true]
    rw [heval]
    exact List.mem_singleton.mpr rfl
  exact ⟨hmem, priceTrends_data_points_pos sampleTrendOffers pidSample trendMonthSample 1
    trendBucketSample hmem⟩

/-- Claim C10: every watchlist entry created through the client's
`addToWatchlist` call has `notify_any_offer` hardcoded to true in the
request body, with the target price merely passed through, so under the
qualification rule every client-created entry with an active offer
qualifies as a deal regardless of its target price. -/
theorem addToWatchlist_always_notifies (productId : String) (targetPrice : Option ℚ)
    (offers : List Offer) (asOf : Date)
    (hactive : (bestPrice offers productId asOf).isSome = true) :
    (addToWatchlistBody productId targetPrice).notify_any_offer = true ∧
      (addToWatchlistBody productId targetPrice).target_price = targetPrice ∧
      entryQualifies offers asOf
        (entryFromBody (addToWatchlistBody productId targetPrice)) = true := by
  refine ⟨rfl, rfl, ?_⟩
  obtain ⟨w, hw⟩ := Option.isSome_iff_exists.mp hactive
  simp only [entryQualifies, entryFromBody, addToWatchlistBody]
  rw [hw]
  rfl

/-- Closed instantiation of `addToWatchlist_always_notifies`: the entry
qualifies with a target price of 1.00 far below the 5.00 best price,
because the body forces `notify_any_offer`. -/
theorem addToWatchlist_always_notifies_witness :
    (bestPrice [offerAtFive] pidSample sampleDate).isSome = true ∧
      ((addToWatchlistBody pidSample (some 1)).notify_any_offer = true ∧
        (addToWatchlistBody pidSample (some 1)).target_price = some 1 ∧
        entryQualifies [offerAtFive] sampleDate
          (entryFromBody (addToWatchlistBody pidSample (some 1))) = true) :=
  ⟨by decide,
    addToWatchlist_always_notifies pidSample (some 1) [offerAtFive] sampleDate (by decide)⟩
